import Mathlib

/-!
Verification development for the wowswap Solana program
(`programs/wowswap/src/{math,reserve,governance,swap}.rs`).

The numeric core of the program is embedded shallowly: the Rust wrapper types
`TokenAmount` (u64), `Rate`, `Wad`, `Ray` (u128) and `Factor` (u64) are all
modelled as `Nat`, with the machine bounds enforced by explicit checked
operations in an `Except WowError` monad.  A Rust `checked_*` operation that
the source unwraps with `expect` (a panic, which aborts the whole Solana
transaction) is modelled as `Except.error`; the error value records the cause
of the abort (`overflow` for out-of-range results and failed subtractions,
`divByZero` for a `checked_div` by zero).  The recoverable program errors
(`WowswapError::BorrowLimitExceeded`, `LiquidateHealthyPosition`,
`InvalidArgument`) get their own constructors.  Token transfers, mints, burns
and the Serum DEX calls are external collaborators; operations that depend on
them take the observed vault balances as inputs.
-/

/-- Error outcomes of the embedded program fragments. -/
inductive WowError where
  | overflow
  | divByZero
  | invalidArgument
  | borrowLimitExceeded
  | liquidateHealthyPosition
deriving DecidableEq

deriving instance DecidableEq for Except

/-- Maximum value of a `u64`. -/
def U64MAX : Nat := 18446744073709551615

/-- Maximum value of a `u128`. -/
def U128MAX : Nat := 340282366920938463463374607431768211455

/-- Range check: `v` must fit below `max`, otherwise the computation aborts. -/
def chk (max v : Nat) : Except WowError Nat :=
  if v ≤ max then .ok v else .error .overflow

/-- Checked `u64` addition (`TokenAmount::checked_add`, `Factor::checked_add`). -/
def add64 (a b : Nat) : Except WowError Nat := chk U64MAX (a + b)

/-- Checked `u128` addition (`Wad/Ray/u128::checked_add`). -/
def add128 (a b : Nat) : Except WowError Nat := chk U128MAX (a + b)

/-- Checked `u64` multiplication (`Factor::checked_mul`). -/
def mul64 (a b : Nat) : Except WowError Nat := chk U64MAX (a * b)

/-- Checked `u128` multiplication (`Wad/Ray/u128::checked_mul`). -/
def mul128 (a b : Nat) : Except WowError Nat := chk U128MAX (a * b)

/-- Checked subtraction (`checked_sub` on any unsigned width: fails on underflow). -/
def subChk (a b : Nat) : Except WowError Nat :=
  if b ≤ a then .ok (a - b) else .error .overflow

/-- Checked division (`checked_div`: fails exactly when the divisor is zero). -/
def div0 (a b : Nat) : Except WowError Nat :=
  if b = 0 then .error .divByZero else .ok (a / b)

/-- Conversion `TokenAmount::from_u128`, which asserts the value fits in a `u64`. -/
def fromU128 (v : Nat) : Except WowError Nat := chk U64MAX v

/-- Scale of `Wad` (`Wad::ONE`, 1e9). -/
def WAD : Nat := 1000000000

/-- Half of the `Wad` scale (`Wad::HALF`). -/
def WAD_HALF : Nat := 500000000

/-- Scale of `Ray` (`Ray::ONE`, 1e18). -/
def RAY : Nat := 1000000000000000000

/-- Half of the `Ray` scale (`Ray::HALF`). -/
def RAY_HALF : Nat := 500000000000000000

/-- Scale of `Factor` (`Factor::ONE`, basis points times one hundred). -/
def FACTOR_ONE : Nat := 10000

/-- Half of the `Factor` scale (`Factor::HALF`). -/
def FACTOR_HALF : Nat := 5000

/-- Divisor between the `Rate` scale and the `Ray` scale (`Rate::RAY_RATIO`). -/
def RATE_RAY_DIVISOR : Nat := 1000000000

/-- Accuracy divisor applied to raw governance parameters
(`Governance::ACCURACY_DIVISOR`, 1e18). -/
def ACCURACY_DIVISOR : Nat := 1000000000000000000

/-- `Wad::wad_mul`: `(a * b + HALF_WAD) / WAD` with checked steps. -/
def Wad.wad_mul (a b : Nat) : Except WowError Nat :=
  (mul128 a b).bind fun v =>
  (add128 v WAD_HALF).bind fun w =>
  div0 w WAD

/-- `Wad::wad_div`: `(a * WAD + b / 2) / b` with checked steps. -/
def Wad.wad_div (a b : Nat) : Except WowError Nat :=
  (mul128 a WAD).bind fun v =>
  (add128 v (b / 2)).bind fun w =>
  div0 w b

/-- `Wad::into_ray`: multiply by 1e9 with an overflow check. -/
def Wad.into_ray (a : Nat) : Except WowError Nat := mul128 a WAD

/-- `Ray::ray_mul`: `(a * b + HALF_RAY) / RAY` with checked steps. -/
def Ray.ray_mul (a b : Nat) : Except WowError Nat :=
  (mul128 a b).bind fun v =>
  (add128 v RAY_HALF).bind fun w =>
  div0 w RAY

/-- `Ray::ray_div`: `(a * RAY + b / 2) / b` with checked steps. -/
def Ray.ray_div (a b : Nat) : Except WowError Nat :=
  (mul128 a RAY).bind fun v =>
  (add128 v (b / 2)).bind fun w =>
  div0 w b

/-- `Ray::invert`: `ONE - a`, failing when `a` exceeds one. -/
def Ray.invert (a : Nat) : Except WowError Nat := subChk RAY a

/-- `Ray::as_rate`: multiply by `Rate::RAY_RATIO` with an overflow check. -/
def Ray.as_rate (a : Nat) : Except WowError Nat := mul128 a RATE_RAY_DIVISOR

/-- `Ray::as_token_amount` (via `TokenAmount::from_u128`). -/
def Ray.as_token_amount (a : Nat) : Except WowError Nat := fromU128 a

/-- `Rate::into_ray`: an overflowing (in fact plain truncating) division by 1e9. -/
def Rate.into_ray (a : Nat) : Nat := a / RATE_RAY_DIVISOR

/-- `Factor::percentage_mul`: `(value * factor + HALF) / ONE` with checked steps. -/
def Factor.percentage_mul (f value : Nat) : Except WowError Nat :=
  (mul128 value f).bind fun v =>
  (add128 v FACTOR_HALF).bind fun w =>
  div0 w FACTOR_ONE

/-- Loop body of `interest::calculate_compounded` (`for i in 1..5`): iterations
are driven by the explicit index list `[1, 2, 3, 4]`; `exp.checked_sub(i)`
returning `None` or zero both break out of the loop, which is the condition
`exp ≤ i`. -/
def interest.compoundedLoop (rateRay exp : Nat) :
    List Nat → Nat → Nat → Except WowError Nat
  | [], _, result => .ok result
  | i :: rest, el, result =>
    if exp ≤ i then .ok result
    else
      (mul128 el (exp - i)).bind fun el1 =>
      (Ray.ray_mul rateRay el1).bind fun el2 =>
      (div0 el2 (i + 1)).bind fun el3 =>
      (add128 result el3).bind fun result1 =>
      interest.compoundedLoop rateRay exp rest el3 result1

/-- `interest::calculate_compounded`: truncated binomial approximation of
`(1 + rate)^(timestamp - last_timestamp)` in `Ray` precision. -/
def interest.calculate_compounded (rate last_timestamp timestamp : Nat) :
    Except WowError Nat :=
  (subChk timestamp last_timestamp).bind fun exp =>
  if exp = 0 then .ok RAY
  else
    (mul128 (Rate.into_ray rate) exp).bind fun el =>
    (add128 RAY el).bind fun result =>
    interest.compoundedLoop (Rate.into_ray rate) exp [1, 2, 3, 4] el result

/-- `interest::calculate_utilization`: `debt / (liquidity + debt)` in `Ray`. -/
def interest.calculate_utilization (debt liquidity : Nat) : Except WowError Nat :=
  (add128 liquidity debt).bind fun s =>
  Ray.ray_div debt s

/-- Excess branch of `interest::borrow_rate` (`utilization > optimal`). -/
def interest.borrow_rate_excess (u base_borrow_rate excess_slope optimal_slope
    optimal_utilization : Nat) : Except WowError Nat :=
  (add128 (Rate.into_ray base_borrow_rate) optimal_slope).bind fun v =>
  (Ray.invert optimal_utilization).bind fun inv =>
  (Ray.ray_div (u - optimal_utilization) inv).bind fun ratio =>
  (Ray.ray_mul excess_slope ratio).bind fun extra =>
  add128 v extra

/-- Optimal branch of `interest::borrow_rate` (`utilization ≤ optimal`). -/
def interest.borrow_rate_optimal (u base_borrow_rate optimal_slope
    optimal_utilization : Nat) : Except WowError Nat :=
  (Ray.ray_div u optimal_utilization).bind fun ratio =>
  (Ray.ray_mul optimal_slope ratio).bind fun scaled =>
  add128 (Rate.into_ray base_borrow_rate) scaled

/-- `interest::borrow_rate`: the two-slope utilization curve.  The Rust `match`
on `utilization.checked_sub(optimal_utilization)` takes the excess branch
exactly when the subtraction succeeds with a nonzero difference, i.e. when
`optimal_utilization < utilization`. -/
def interest.borrow_rate (debt liquidity base_borrow_rate excess_slope
    optimal_slope optimal_utilization : Nat) : Except WowError Nat :=
  (interest.calculate_utilization debt liquidity).bind fun u =>
  (if optimal_utilization < u then
    interest.borrow_rate_excess u base_borrow_rate excess_slope optimal_slope
      optimal_utilization
  else
    interest.borrow_rate_optimal u base_borrow_rate optimal_slope
      optimal_utilization).bind fun v =>
  Ray.as_rate v

/-- Governance account: raw `u128` parameters as stored on chain. -/
structure Governance where
  pool_utilization_allowance : Nat
  base_borrow_rate : Nat
  excess_slope : Nat
  optimal_slope : Nat
  optimal_utilization : Nat
  treasure_factor : Nat
  max_leverage_factor : Nat
  max_rate_multiplier : Nat
  liquidation_margin : Nat
  liquidation_reward : Nat
  max_liquidation_reward : Nat
deriving DecidableEq

/-- `Governance::apply_accuracy`: overflowing division by `ACCURACY_DIVISOR`
followed by a panic when the result exceeds `u64::MAX`. -/
def Governance.apply_accuracy (v : Nat) : Except WowError Nat :=
  if v / ACCURACY_DIVISOR ≤ U64MAX then .ok (v / ACCURACY_DIVISOR)
  else .error .overflow

/-- Accessor `Governance::pool_utilization_allowance()`. -/
def Governance.poolUtilizationAllowance (g : Governance) : Except WowError Nat :=
  Governance.apply_accuracy g.pool_utilization_allowance

/-- Accessor `Governance::treasure_factor()`. -/
def Governance.treasureFactor (g : Governance) : Except WowError Nat :=
  Governance.apply_accuracy g.treasure_factor

/-- Accessor `Governance::max_leverage_factor()`. -/
def Governance.maxLeverageFactor (g : Governance) : Except WowError Nat :=
  Governance.apply_accuracy g.max_leverage_factor

/-- Accessor `Governance::max_rate_multiplier()`. -/
def Governance.maxRateMultiplier (g : Governance) : Except WowError Nat :=
  Governance.apply_accuracy g.max_rate_multiplier

/-- Accessor `Governance::liquidation_margin()`. -/
def Governance.liquidationMargin (g : Governance) : Except WowError Nat :=
  Governance.apply_accuracy g.liquidation_margin

/-- Accessor `Governance::liquidation_reward()`. -/
def Governance.liquidationReward (g : Governance) : Except WowError Nat :=
  Governance.apply_accuracy g.liquidation_reward

/-- Accessor `Governance::max_liquidation_reward()`. -/
def Governance.maxLiquidationReward (g : Governance) : Except WowError Nat :=
  Governance.apply_accuracy g.max_liquidation_reward

/-- `ReserveState`: the rate / treasury part of a reserve account. -/
structure ReserveState where
  borrow_rate : Nat
  treasure_accrued : Nat
  treasurer_update : Nat
deriving DecidableEq

/-- `ReserveDebt`: the pool-wide debt part of a reserve account. -/
structure ReserveDebt where
  average_rate : Nat
  total : Nat
  last_update : Nat
deriving DecidableEq

/-- `Reserve`: the numeric state of a reserve account (the pubkey wiring of the
on-chain account is external validation and is omitted). -/
structure Reserve where
  state : ReserveState
  debt : ReserveDebt
deriving DecidableEq

/-- `SwapPositionState`: the numeric state of one trader position. -/
structure SwapPositionState where
  loan : Nat
  rate : Nat
  amount : Nat
  timestamp : Nat
deriving DecidableEq

/-- `ReserveDebt::get_total_debt`: project the pool debt to `timestamp` by the
compounded average rate. -/
def ReserveDebt.get_total_debt (d : ReserveDebt) (timestamp : Nat) :
    Except WowError Nat :=
  (interest.calculate_compounded d.average_rate d.last_update timestamp).bind fun c =>
  (Ray.ray_mul d.total c).bind fun v =>
  Ray.as_token_amount v

/-- `SwapPositionState::get_debt`: project the position debt to `timestamp`. -/
def SwapPositionState.get_debt (p : SwapPositionState) (timestamp : Nat) :
    Except WowError Nat :=
  (interest.calculate_compounded p.rate p.timestamp timestamp).bind fun c =>
  (Ray.ray_mul p.amount c).bind fun v =>
  Ray.as_token_amount v

/-- `SwapPositionState::calculate_debt_increase`: current projected debt and
its increase over the stored snapshot. -/
def SwapPositionState.calculate_debt_increase (p : SwapPositionState)
    (timestamp : Nat) : Except WowError (Nat × Nat) :=
  if p.amount = 0 then .ok (0, 0)
  else
    (p.get_debt timestamp).bind fun current_debt =>
    (subChk current_debt p.amount).bind fun increase =>
    .ok (current_debt, increase)

/-- `Reserve::get_liquidity_fee_accrued`: the treasury fee on the debt accrued
since the last treasury checkpoint, added onto the stored accrual. -/
def Reserve.get_liquidity_fee_accrued (r : Reserve) (g : Governance)
    (current_debt : Nat) : Except WowError Nat :=
  (if current_debt = 0 then .ok 0
   else
     (interest.calculate_compounded r.debt.average_rate r.debt.last_update
       r.state.treasurer_update).bind fun c =>
     (Ray.ray_mul r.debt.total c).bind fun v =>
     (Ray.as_token_amount v).bind fun previous_debt =>
     (subChk current_debt previous_debt).bind fun debt_accrued =>
     (g.treasureFactor).bind fun tf =>
     (Factor.percentage_mul tf debt_accrued).bind fun fee128 =>
     fromU128 fee128).bind fun fee =>
  add64 r.state.treasure_accrued fee

/-- `Reserve::update_state`: refresh `treasure_accrued` and the treasury
checkpoint timestamp. -/
def Reserve.update_state (r : Reserve) (g : Governance)
    (total_debt timestamp : Nat) : Except WowError Reserve :=
  (r.get_liquidity_fee_accrued g total_debt).bind fun acc =>
  .ok { r with state := { r.state with treasure_accrued := acc,
                                       treasurer_update := timestamp } }

/-- `Reserve::get_total_liquidity`: `total_debt + liquidity - treasure_accrued`
with checked steps. -/
def Reserve.get_total_liquidity (r : Reserve) (total_debt liquidity : Nat) :
    Except WowError Nat :=
  (add64 total_debt liquidity).bind fun v =>
  subChk v r.state.treasure_accrued

/-- `Reserve::update_borrow_rate`: recompute the stored borrow rate from the
post-change debt and liquidity figures. -/
def Reserve.update_borrow_rate (r : Reserve) (g : Governance)
    (liquidity liquidity_added liquidity_removed total_debt debt_added
     debt_removed : Nat) : Except WowError Reserve :=
  (add64 total_debt debt_added).bind fun d1 =>
  (subChk d1 debt_removed).bind fun debt =>
  (add64 liquidity liquidity_added).bind fun l1 =>
  (subChk l1 liquidity_removed).bind fun liq =>
  (interest.borrow_rate debt liq g.base_borrow_rate g.excess_slope
    g.optimal_slope g.optimal_utilization).bind fun br =>
  .ok { r with state := { r.state with borrow_rate := br } }

/-- `Reserve::increase_debt`: register a new borrow of `amount` at
`rate_multiplier` times the current borrow rate, updating the position and the
pool-wide weighted average rate. -/
def Reserve.increase_debt (r : Reserve) (pos : SwapPositionState)
    (timestamp previous_total amount rate_multiplier : Nat) :
    Except WowError (Reserve × SwapPositionState) :=
  (Factor.percentage_mul rate_multiplier r.state.borrow_rate).bind fun rate =>
  (Wad.into_ray amount).bind fun aw =>
  (Ray.ray_mul aw (Rate.into_ray rate)).bind fun amount_ray_rate =>
  (pos.calculate_debt_increase timestamp).bind fun ci =>
  (add64 previous_total amount).bind fun next_total =>
  (add64 pos.amount amount).bind fun pa1 =>
  (add64 pa1 ci.2).bind fun pos_amount =>
  (Wad.into_ray ci.1).bind fun cdw =>
  (Ray.ray_mul (Rate.into_ray pos.rate) cdw).bind fun t1 =>
  (add128 t1 amount_ray_rate).bind fun t2 =>
  (add64 ci.1 amount).bind fun dsum =>
  (Wad.into_ray dsum).bind fun dw =>
  (Ray.ray_div t2 dw).bind fun prr =>
  (Ray.as_rate prr).bind fun pos_rate =>
  (Wad.into_ray previous_total).bind fun ptw =>
  (Ray.ray_mul (Rate.into_ray r.debt.average_rate) ptw).bind fun a1 =>
  (add128 a1 amount_ray_rate).bind fun a2 =>
  (Wad.into_ray next_total).bind fun ntw =>
  (Ray.ray_div a2 ntw).bind fun arr =>
  (Ray.as_rate arr).bind fun avg_rate =>
  .ok ({ r with debt := { average_rate := avg_rate, total := next_total,
                          last_update := timestamp } },
       { pos with amount := pos_amount, rate := pos_rate,
                  timestamp := timestamp })

/-- Pool-side rate-weighted total in `Reserve::decrease_debt`:
`average_rate.into_ray().ray_mul(total.into_wad().into_ray())`. -/
def Reserve.decrease_first_term (r : Reserve) (reserve_total_debt : Nat) :
    Except WowError Nat :=
  (Wad.into_ray reserve_total_debt).bind fun t =>
  Ray.ray_mul (Rate.into_ray r.debt.average_rate) t

/-- Position-side rate-weighted contribution in `Reserve::decrease_debt`:
`position.rate.into_ray().ray_mul(debt_change.into_wad().into_ray())`. -/
def Reserve.decrease_second_term (pos : SwapPositionState) (debt_change : Nat) :
    Except WowError Nat :=
  (Wad.into_ray debt_change).bind fun t =>
  Ray.ray_mul (Rate.into_ray pos.rate) t

/-- `Reserve::decrease_debt`: repay `debt_change` against the pool, with the
last-borrower rounding policy that resets the pool debt and average rate to
zero instead of going negative. -/
def Reserve.decrease_debt (r : Reserve) (pos : SwapPositionState)
    (timestamp reserve_total_debt debt_change : Nat) :
    Except WowError (Reserve × SwapPositionState) :=
  (pos.calculate_debt_increase timestamp).bind fun ci =>
  (if reserve_total_debt ≤ debt_change then .ok ((0 : Nat), (0 : Nat))
   else
     (subChk reserve_total_debt debt_change).bind fun next_total =>
     (r.decrease_first_term reserve_total_debt).bind fun first_term =>
     (Reserve.decrease_second_term pos debt_change).bind fun second_term =>
     if first_term ≤ second_term then .ok ((0 : Nat), (0 : Nat))
     else
       (subChk first_term second_term).bind fun num =>
       (Wad.into_ray next_total).bind fun ntw =>
       (Ray.ray_div num ntw).bind fun v =>
       (Ray.as_rate v).bind fun avg_rate =>
       .ok (avg_rate, next_total)).bind fun rt =>
  (if debt_change = ci.1 then
     .ok { pos with rate := 0, amount := 0, timestamp := 0 }
   else
     (add64 pos.amount ci.2).bind fun a1 =>
     (subChk a1 debt_change).bind fun a2 =>
     .ok { pos with amount := a2, timestamp := timestamp }).bind fun pos1 =>
  .ok ({ r with debt := { average_rate := rt.1, total := rt.2,
                          last_update := timestamp } }, pos1)

/-- Debt-registration block of `SwapPositionOpen::handle` (the body of the
second `if native_pc_qty_loan > TokenAmount::ZERO` check, after the unspent
part of the borrow has been returned to the reserve): record the residual
`loan` on the swap and the position, enforce the pool-utilization borrow
limit, derive the leverage-tier rate multiplier and update the reserve.
`reserve_vault` is the observed reserve vault balance and
`leverage_factor` / `max_leverage` the already validated factors.  Returns the
new swap `total_loan`, position and reserve. -/
def openRegisterDebt (swap_total_loan : Nat) (pos : SwapPositionState)
    (r : Reserve) (g : Governance)
    (reserve_vault leverage_factor max_leverage loan timestamp : Nat) :
    Except WowError (Nat × SwapPositionState × Reserve) :=
  if loan = 0 then .ok (swap_total_loan, pos, r)
  else
    (add64 swap_total_loan loan).bind fun stl1 =>
    (add64 pos.loan loan).bind fun ploan1 =>
    (g.poolUtilizationAllowance).bind fun pu =>
    (r.debt.get_total_debt timestamp).bind fun total_debt =>
    (r.get_total_liquidity total_debt reserve_vault).bind fun total_liquidity =>
    (Factor.percentage_mul pu total_liquidity).bind fun bl =>
    (fromU128 bl).bind fun borrow_limit =>
    if stl1 < borrow_limit then
      (g.maxRateMultiplier).bind fun mrm =>
      (subChk leverage_factor FACTOR_ONE).bind fun a =>
      (subChk mrm FACTOR_ONE).bind fun b =>
      (mul64 a b).bind fun ab =>
      (subChk max_leverage FACTOR_ONE).bind fun c =>
      (div0 ab c).bind fun q =>
      (add64 q FACTOR_ONE).bind fun rate_multiplier =>
      (r.update_state g total_debt timestamp).bind fun r1 =>
      (r1.update_borrow_rate g reserve_vault 0 loan total_debt loan 0).bind fun r2 =>
      (r2.increase_debt { pos with loan := ploan1 } timestamp total_debt loan
        rate_multiplier).bind fun rp =>
      .ok (stl1, rp.2, rp.1)
    else .error .borrowLimitExceeded

/-- Liquidation cost threshold in `SwapPositionLiquidate::handle`:
`current_debt + liquidation_margin% · current_debt`. -/
def liquidationCost (g : Governance) (current_debt : Nat) :
    Except WowError Nat :=
  (g.liquidationMargin).bind fun margin =>
  (Factor.percentage_mul margin current_debt).bind fun m128 =>
  (fromU128 m128).bind fun m =>
  add64 current_debt m

/-- `SwapPositionLiquidate::pay_liquidation_reward`: the liquidator gets
`liquidation_reward%` of the sale proceeds, clamped to `max_liquidation_reward`
when that cap is nonzero; returns the reward and the remaining amount. -/
def pay_liquidation_reward (g : Governance) (amount : Nat) :
    Except WowError (Nat × Nat) :=
  (g.maxLiquidationReward).bind fun max_reward =>
  (g.liquidationReward).bind fun lr =>
  (Factor.percentage_mul lr amount).bind fun v =>
  (fromU128 v).bind fun reward0 =>
  (subChk amount (if max_reward ≠ 0 ∧ max_reward < reward0 then max_reward
                  else reward0)).bind fun left =>
  .ok (if max_reward ≠ 0 ∧ max_reward < reward0 then max_reward else reward0,
       left)

/-- `SwapPositionLiquidate::reserve_update_state`: refresh the treasury
accrual, settle `debt_change` against the pool and recompute the borrow rate
from the observed reserve vault balance. -/
def liquidateReserveUpdate (pos : SwapPositionState) (r : Reserve)
    (g : Governance) (timestamp debt_change reserve_vault : Nat) :
    Except WowError (Reserve × SwapPositionState) :=
  (r.debt.get_total_debt timestamp).bind fun total_debt =>
  (r.update_state g total_debt timestamp).bind fun r1 =>
  (r1.decrease_debt pos timestamp total_debt debt_change).bind fun rp =>
  (rp.1.debt.get_total_debt timestamp).bind fun total_debt2 =>
  (rp.1.update_borrow_rate g reserve_vault debt_change 0 total_debt2 0 0).bind fun r3 =>
  .ok (r3, rp.2)

/-- Result of a successful `SwapPositionLiquidate::handle`: the reward paid to
the liquidator, the amounts transferred back to the reserve and the trader,
and the updated swap loan total, position and reserve. -/
structure LiquidateOutcome where
  reward : Nat
  reserveRepay : Nat
  traderRefund : Nat
  totalLoan : Nat
  position : SwapPositionState
  reserve : Reserve
deriving DecidableEq

/-- `SwapPositionLiquidate::handle`.  The Serum sale of the entire
receipt-token balance is an external collaborator: `proxy_balance` is the
position's receipt-token balance, `lot_coin` / `lot_pc` the market lot sizes,
and `proceeds` the quote-vault balance observed after the forced sale (the
fixed limit price of the sell order is 1).  Note that the healthy-position
check compares the liquidation cost against the realized `proceeds`, i.e. it
runs after the forced sale; an error aborts the whole transaction, which is
what rolls the sale back. -/
def liquidate (pos : SwapPositionState) (r : Reserve) (g : Governance)
    (swap_total_loan timestamp proxy_balance lot_coin lot_pc proceeds
     reserve_vault : Nat) : Except WowError LiquidateOutcome :=
  (pos.get_debt timestamp).bind fun current_debt =>
  (liquidationCost g current_debt).bind fun cost =>
  (div0 proxy_balance lot_coin).bind fun coin_qty =>
  (if coin_qty = 0 then (.error .overflow : Except WowError Nat)
   else .ok coin_qty).bind fun coin_qty =>
  (if lot_pc = 0 then (.error .invalidArgument : Except WowError Nat)
   else .ok lot_pc).bind fun pclot =>
  (if pclot * coin_qty ≤ U64MAX ∧ 0 < pclot * coin_qty
   then (.ok (pclot * coin_qty) : Except WowError Nat)
   else .error .invalidArgument).bind fun _native_pc_qty =>
  if cost < proceeds then .error .liquidateHealthyPosition
  else
    (pay_liquidation_reward g proceeds).bind fun rw =>
    (subChk swap_total_loan pos.loan).bind fun stl1 =>
    (liquidateReserveUpdate { pos with loan := 0 } r g timestamp current_debt
      reserve_vault).bind fun rp =>
    .ok { reward := rw.1,
          reserveRepay := if current_debt ≤ rw.2 ∧ rw.2 - current_debt ≠ 0
                          then current_debt else rw.2,
          traderRefund := if current_debt ≤ rw.2 ∧ rw.2 - current_debt ≠ 0
                          then rw.2 - current_debt else 0,
          totalLoan := stl1, position := rp.2, reserve := rp.1 }

/-- Overflow-free image of `interest::ray_mul` on unbounded naturals, used to
reason about the values produced by the checked compounding loop. -/
def interest.rayMulT (a b : Nat) : Nat := (a * b + RAY_HALF) / RAY

/-- Overflow-free image of the `calculate_compounded` loop: identical recursion
and break condition, with the checked operations replaced by plain `Nat`
arithmetic.  When the checked loop succeeds the two agree. -/
def interest.compoundedLoopT (rateRay exp : Nat) :
    List Nat → Nat → Nat → Nat
  | [], _, result => result
  | i :: rest, el, result =>
    if exp ≤ i then result
    else
      interest.compoundedLoopT rateRay exp rest
        (interest.rayMulT rateRay (el * (exp - i)) / (i + 1))
        (result + interest.rayMulT rateRay (el * (exp - i)) / (i + 1))

/-- Overflow-free image of `interest::calculate_compounded` (meaningful when
`last_timestamp ≤ timestamp`). -/
def interest.calculate_compoundedT (rate last_timestamp timestamp : Nat) : Nat :=
  if timestamp - last_timestamp = 0 then RAY
  else
    interest.compoundedLoopT (Rate.into_ray rate) (timestamp - last_timestamp)
      [1, 2, 3, 4] (Rate.into_ray rate * (timestamp - last_timestamp))
      (RAY + Rate.into_ray rate * (timestamp - last_timestamp))

/-- Rounding specification: `r` is the integer nearest to the rational
`num / den`, with a tie (`num / den = r - 1/2` or `r + 1/2`) resolved upward.
Written without subtraction: `r - 1/2 ≤ num / den < r + 1/2` multiplied
through by `2 * den` and shifted by `den`. -/
def NearestTiesUp (num den r : Nat) : Prop :=
  2 * r * den ≤ 2 * num + den ∧ 2 * num + den < 2 * r * den + 2 * den

/-- Predicate used to show an embedded computation can never abort with the
`liquidate-healthy-position` program error (that error has a single source,
the post-sale solvency gate). -/
def NeverHealthy {α : Type} (x : Except WowError α) : Prop :=
  x ≠ .error .liquidateHealthyPosition

/-- Predicate used to show an embedded computation never aborts because of a
division by zero. -/
def NeverDivZero {α : Type} (x : Except WowError α) : Prop :=
  x ≠ .error .divByZero

/-- Example governance snapshot: `pool_utilization_allowance` of 50%,
maximum leverage 2x, maximum rate multiplier 3x, all rates and slopes zero. -/
def govEx : Governance :=
  { pool_utilization_allowance := 5000000000000000000000, base_borrow_rate := 0,
    excess_slope := 0, optimal_slope := 0,
    optimal_utilization := 500000000000000000,
    treasure_factor := 0, max_leverage_factor := 20000000000000000000000,
    max_rate_multiplier := 30000000000000000000000, liquidation_margin := 0,
    liquidation_reward := 0, max_liquidation_reward := 0 }

/-- Example reserve with an accrued treasury of 7 units and no debt. -/
def reserveEx : Reserve :=
  { state := { borrow_rate := 0, treasure_accrued := 7, treasurer_update := 0 },
    debt := { average_rate := 0, total := 0, last_update := 0 } }

/-- The reserve `reserveEx` after `update_state` at time 5 with zero debt. -/
def reserveEx2 : Reserve :=
  { state := { borrow_rate := 0, treasure_accrued := 7, treasurer_update := 5 },
    debt := { average_rate := 0, total := 0, last_update := 0 } }

/-- Example position with a principal of 5 units stamped at time 10. -/
def posEx : SwapPositionState :=
  { loan := 0, rate := 0, amount := 5, timestamp := 10 }

/-- The reserve `reserveEx` after `decrease_debt` fully repays the pool. -/
def reserveEx3 : Reserve :=
  { state := { borrow_rate := 0, treasure_accrued := 7, treasurer_update := 0 },
    debt := { average_rate := 0, total := 0, last_update := 10 } }

/-- A fully zeroed position. -/
def posExZero : SwapPositionState :=
  { loan := 0, rate := 0, amount := 0, timestamp := 0 }

/-- Fresh reserve used for the borrow-limit example. -/
def reserveOpen : Reserve :=
  { state := { borrow_rate := 0, treasure_accrued := 0, treasurer_update := 3 },
    debt := { average_rate := 0, total := 0, last_update := 3 } }

/-- Governance snapshot used for the liquidation examples: a liquidation
reward of 50%, zero liquidation margin and a zero (hence disabled) absolute
reward cap. -/
def govLiq : Governance :=
  { pool_utilization_allowance := 0, base_borrow_rate := 0, excess_slope := 0,
    optimal_slope := 0, optimal_utilization := 500000000000000000,
    treasure_factor := 0, max_leverage_factor := 0, max_rate_multiplier := 0,
    liquidation_margin := 0,
    liquidation_reward := 5000000000000000000000,
    max_liquidation_reward := 0 }

/-- Reserve used for the liquidation examples: pool debt of 100 units. -/
def reserveLiq : Reserve :=
  { state := { borrow_rate := 0, treasure_accrued := 0, treasurer_update := 7 },
    debt := { average_rate := 0, total := 100, last_update := 7 } }

/-- Position used for the liquidation examples: a 100-unit loan at zero rate. -/
def posLiq : SwapPositionState :=
  { loan := 100, rate := 0, amount := 100, timestamp := 7 }

/-- Outcome of liquidating `posLiq` against `reserveLiq` under `govLiq` with
sale proceeds of 100 units: the liquidator receives 50 (half the proceeds,
with no cap since `max_liquidation_reward` is zero), the remaining 50 go back
to the reserve, and the pool is zeroed. -/
def liqOutcomeEx : LiquidateOutcome :=
  { reward := 50, reserveRepay := 50, traderRefund := 0, totalLoan := 0,
    position := { loan := 0, rate := 0, amount := 0, timestamp := 0 },
    reserve := { state := { borrow_rate := 0, treasure_accrued := 0,
                            treasurer_update := 7 },
                 debt := { average_rate := 0, total := 0, last_update := 7 } } }

theorem ok_bind {α β : Type} (a : α) (f : α → Except WowError β) :
    (Except.ok a : Except WowError α).bind f = f a := rfl

theorem error_bind {α β : Type} (e : WowError) (f : α → Except WowError β) :
    (Except.error e : Except WowError α).bind f = .error e := rfl

theorem bind_ok_inv {α β : Type} {x : Except WowError α}
    {f : α → Except WowError β} {b : β} (h : x.bind f = .ok b) :
    ∃ a, x = .ok a ∧ f a = .ok b := by
  cases x with
  | error e => exact absurd h (by simp [Except.bind])
  | ok a => exact ⟨a, rfl, h⟩

theorem chk_ok {m v a : Nat} (h : chk m v = .ok a) : a = v ∧ v ≤ m := by
  unfold chk at h
  split at h
  · exact ⟨(Except.ok.injEq _ _).mp h |>.symm, by assumption⟩
  · exact absurd h (by simp)

theorem add64_ok {a b c : Nat} (h : add64 a b = .ok c) :
    c = a + b ∧ a + b ≤ U64MAX := chk_ok h

theorem add128_ok {a b c : Nat} (h : add128 a b = .ok c) :
    c = a + b ∧ a + b ≤ U128MAX := chk_ok h

theorem mul64_ok {a b c : Nat} (h : mul64 a b = .ok c) :
    c = a * b ∧ a * b ≤ U64MAX := chk_ok h

theorem mul128_ok {a b c : Nat} (h : mul128 a b = .ok c) :
    c = a * b ∧ a * b ≤ U128MAX := chk_ok h

theorem fromU128_ok {v a : Nat} (h : fromU128 v = .ok a) :
    a = v ∧ v ≤ U64MAX := chk_ok h

theorem subChk_ok {a b c : Nat} (h : subChk a b = .ok c) :
    c = a - b ∧ b ≤ a := by
  unfold subChk at h
  split at h
  · exact ⟨(Except.ok.injEq _ _).mp h |>.symm, by assumption⟩
  · exact absurd h (by simp)

theorem div0_ok {a b c : Nat} (h : div0 a b = .ok c) :
    c = a / b ∧ b ≠ 0 := by
  unfold div0 at h
  split at h
  · exact absurd h (by simp)
  · exact ⟨(Except.ok.injEq _ _).mp h |>.symm, by assumption⟩

theorem chk_of_le {m v : Nat} (h : v ≤ m) : chk m v = .ok v := by
  simp [chk, h]

theorem subChk_of_le {a b : Nat} (h : b ≤ a) : subChk a b = .ok (a - b) := by
  simp [subChk, h]

theorem div0_of_ne {a b : Nat} (h : b ≠ 0) : div0 a b = .ok (a / b) := by
  simp [div0, h]

theorem wad_mul_ok {a b r : Nat} (h : Wad.wad_mul a b = .ok r) :
    r = (a * b + WAD_HALF) / WAD := by
  unfold Wad.wad_mul at h
  obtain ⟨v, hv, h⟩ := bind_ok_inv h
  obtain ⟨w, hw, h⟩ := bind_ok_inv h
  obtain ⟨hv1, -⟩ := mul128_ok hv
  obtain ⟨hw1, -⟩ := add128_ok hw
  obtain ⟨h1, -⟩ := div0_ok h
  rw [h1, hw1, hv1]

theorem wad_div_ok {a b r : Nat} (h : Wad.wad_div a b = .ok r) :
    r = (a * WAD + b / 2) / b ∧ b ≠ 0 := by
  unfold Wad.wad_div at h
  obtain ⟨v, hv, h⟩ := bind_ok_inv h
  obtain ⟨w, hw, h⟩ := bind_ok_inv h
  obtain ⟨hv1, -⟩ := mul128_ok hv
  obtain ⟨hw1, -⟩ := add128_ok hw
  obtain ⟨h1, h2⟩ := div0_ok h
  exact ⟨by rw [h1, hw1, hv1], h2⟩

theorem ray_mul_ok {a b r : Nat} (h : Ray.ray_mul a b = .ok r) :
    r = (a * b + RAY_HALF) / RAY := by
  unfold Ray.ray_mul at h
  obtain ⟨v, hv, h⟩ := bind_ok_inv h
  obtain ⟨w, hw, h⟩ := bind_ok_inv h
  obtain ⟨hv1, -⟩ := mul128_ok hv
  obtain ⟨hw1, -⟩ := add128_ok hw
  obtain ⟨h1, -⟩ := div0_ok h
  rw [h1, hw1, hv1]

theorem ray_div_ok {a b r : Nat} (h : Ray.ray_div a b = .ok r) :
    r = (a * RAY + b / 2) / b ∧ b ≠ 0 := by
  unfold Ray.ray_div at h
  obtain ⟨v, hv, h⟩ := bind_ok_inv h
  obtain ⟨w, hw, h⟩ := bind_ok_inv h
  obtain ⟨hv1, -⟩ := mul128_ok hv
  obtain ⟨hw1, -⟩ := add128_ok hw
  obtain ⟨h1, h2⟩ := div0_ok h
  exact ⟨by rw [h1, hw1, hv1], h2⟩

theorem percentage_mul_ok {f v r : Nat} (h : Factor.percentage_mul f v = .ok r) :
    r = (v * f + FACTOR_HALF) / FACTOR_ONE := by
  unfold Factor.percentage_mul at h
  obtain ⟨x, hx, h⟩ := bind_ok_inv h
  obtain ⟨w, hw, h⟩ := bind_ok_inv h
  obtain ⟨hx1, -⟩ := mul128_ok hx
  obtain ⟨hw1, -⟩ := add128_ok hw
  obtain ⟨h1, -⟩ := div0_ok h
  rw [h1, hw1, hx1]

theorem half_up_div_nearest (num den : Nat) (hden : 0 < den) :
    NearestTiesUp num den ((num + den / 2) / den) := by
  obtain ⟨q, hq⟩ : ∃ q, (num + den / 2) / den = q := ⟨_, rfl⟩
  obtain ⟨m, hm⟩ : ∃ m, (num + den / 2) % den = m := ⟨_, rfl⟩
  have h1 : den * q + m = num + den / 2 := by
    rw [← hq, ← hm]; exact Nat.div_add_mod _ _
  have h2 : m < den := by rw [← hm]; exact Nat.mod_lt _ hden
  have h3 : 2 * (den / 2) + den % 2 = den := Nat.div_add_mod den 2
  have h4 : den % 2 < 2 := Nat.mod_lt _ (by norm_num)
  unfold NearestTiesUp
  rw [hq]
  obtain ⟨P, hP⟩ : ∃ P, den * q = P := ⟨_, rfl⟩
  have hgoal : 2 * q * den = 2 * P := by rw [← hP]; ring
  rw [hgoal]
  rw [hP] at h1
  omega

theorem nearest_ties_up_unique {num den r s : Nat}
    (hr : NearestTiesUp num den r) (hs : NearestTiesUp num den s) : s = r := by
  rcases hr with ⟨hr1, hr2⟩
  rcases hs with ⟨hs1, hs2⟩
  by_contra hne
  rcases Nat.lt_or_ge s r with h | h
  · have hmul : 2 * (s + 1) * den ≤ 2 * r * den :=
      Nat.mul_le_mul_right den (by omega)
    have hlt : 2 * num + den < 2 * (s + 1) * den := by
      calc 2 * num + den < 2 * s * den + 2 * den := hs2
        _ = 2 * (s + 1) * den := by ring
    exact absurd (lt_of_le_of_lt (le_trans hmul hr1) hlt) (lt_irrefl _)
  · have hlt' : r < s := lt_of_le_of_ne h (fun he => hne he.symm)
    have hmul : 2 * (r + 1) * den ≤ 2 * s * den :=
      Nat.mul_le_mul_right den (by omega)
    have hlt : 2 * num + den < 2 * (r + 1) * den := by
      calc 2 * num + den < 2 * r * den + 2 * den := hr2
        _ = 2 * (r + 1) * den := by ring
    exact absurd (lt_of_le_of_lt (le_trans hmul hs1) hlt) (lt_irrefl _)

/-- C7.  Rounding law of the fixed-point mul-div kernel: whenever one of
`Wad::wad_mul`, `Wad::wad_div`, `Ray::ray_mul`, `Ray::ray_div` or
`Factor::percentage_mul` returns a value (no intermediate overflow, nonzero
divisor for the divisions), that value is the unique integer nearest to the
exact rational value of the scaled product or quotient, with ties rounded
up. -/
theorem mul_div_rounding_law (a b r : Nat) :
    (Wad.wad_mul a b = .ok r →
      NearestTiesUp (a * b) WAD r ∧ ∀ s, NearestTiesUp (a * b) WAD s → s = r) ∧
    (Wad.wad_div a b = .ok r →
      NearestTiesUp (a * WAD) b r ∧ ∀ s, NearestTiesUp (a * WAD) b s → s = r) ∧
    (Ray.ray_mul a b = .ok r →
      NearestTiesUp (a * b) RAY r ∧ ∀ s, NearestTiesUp (a * b) RAY s → s = r) ∧
    (Ray.ray_div a b = .ok r →
      NearestTiesUp (a * RAY) b r ∧ ∀ s, NearestTiesUp (a * RAY) b s → s = r) ∧
    (Factor.percentage_mul a b = .ok r →
      NearestTiesUp (b * a) FACTOR_ONE r ∧
        ∀ s, NearestTiesUp (b * a) FACTOR_ONE s → s = r) := by
  refine ⟨fun h => ?_, fun h => ?_, fun h => ?_, fun h => ?_, fun h => ?_⟩
  · have hr := wad_mul_ok h
    have hhalf : WAD_HALF = WAD / 2 := by decide
    rw [hr, hhalf]
    have hmain := half_up_div_nearest (a * b) WAD (by decide)
    exact ⟨hmain, fun s hs => nearest_ties_up_unique hmain hs⟩
  · obtain ⟨hr, hb⟩ := wad_div_ok h
    rw [hr]
    have hmain := half_up_div_nearest (a * WAD) b (Nat.pos_of_ne_zero hb)
    exact ⟨hmain, fun s hs => nearest_ties_up_unique hmain hs⟩
  · have hr := ray_mul_ok h
    have hhalf : RAY_HALF = RAY / 2 := by decide
    rw [hr, hhalf]
    have hmain := half_up_div_nearest (a * b) RAY (by decide)
    exact ⟨hmain, fun s hs => nearest_ties_up_unique hmain hs⟩
  · obtain ⟨hr, hb⟩ := ray_div_ok h
    rw [hr]
    have hmain := half_up_div_nearest (a * RAY) b (Nat.pos_of_ne_zero hb)
    exact ⟨hmain, fun s hs => nearest_ties_up_unique hmain hs⟩
  · have hr := percentage_mul_ok h
    have hhalf : FACTOR_HALF = FACTOR_ONE / 2 := by decide
    rw [hr, hhalf]
    have hmain := half_up_div_nearest (b * a) FACTOR_ONE (by decide)
    exact ⟨hmain, fun s hs => nearest_ties_up_unique hmain hs⟩

/-- Witness for C7: `wad_mul 3 5` succeeds with result 0, which is the nearest
integer to `15 / 1e9`. -/
theorem mul_div_rounding_law_witness : NearestTiesUp (3 * 5) WAD 0 :=
  ((mul_div_rounding_law 3 5 0).1 (by decide)).1

/-- Counterexample to C8: `Rate::into_ray` divides by 1e9 *truncating*, so it
is not a lossless scaling.  At `r = 1` the `Ray` image is 0 (which represents
0, not 1/1e9), and converting back with `Ray::as_rate` yields 0, not 1. -/
theorem rate_ray_roundtrip_counterexample :
    Rate.into_ray 1 = 0 ∧ Ray.as_rate (Rate.into_ray 1) = .ok 0 ∧ (0 : Nat) ≠ 1 := by
  refine ⟨by decide, by decide, by decide⟩

/-- C8 (amended).  `Rate::into_ray` is the truncating division by 1e9, so the
round trip through `Ray::as_rate` returns `1e9 * (r / 1e9)`; it returns `r`
itself exactly when `r` is a multiple of 1e9 (only then is the conversion a
lossless integer scaling). -/
theorem rate_ray_roundtrip_on_multiples (r : Nat) (hr : r ≤ U128MAX) :
    Ray.as_rate (Rate.into_ray r) = .ok (r / RATE_RAY_DIVISOR * RATE_RAY_DIVISOR) ∧
    (RATE_RAY_DIVISOR ∣ r → Ray.as_rate (Rate.into_ray r) = .ok r) := by
  have hle : r / RATE_RAY_DIVISOR * RATE_RAY_DIVISOR ≤ r := Nat.div_mul_le_self _ _
  have hok : Ray.as_rate (Rate.into_ray r) =
      .ok (r / RATE_RAY_DIVISOR * RATE_RAY_DIVISOR) := by
    unfold Ray.as_rate Rate.into_ray mul128
    exact chk_of_le (le_trans hle hr)
  refine ⟨hok, fun hdvd => ?_⟩
  rw [hok, Nat.div_mul_cancel hdvd]

/-- Witness for the amended C8 at the multiple `r = 3e9`. -/
theorem rate_ray_roundtrip_on_multiples_witness :
    Ray.as_rate (Rate.into_ray 3000000000) = .ok 3000000000 :=
  (rate_ray_roundtrip_on_multiples 3000000000 (by decide)).2 (by decide)

theorem compoundedLoop_ok_eq (rr exp : Nat) :
    ∀ (l : List Nat) (el res r : Nat),
      interest.compoundedLoop rr exp l el res = .ok r →
      interest.compoundedLoopT rr exp l el res = r := by
  intro l
  induction l with
  | nil =>
    intro el res r h
    simp only [interest.compoundedLoop] at h
    simp only [interest.compoundedLoopT]
    exact (Except.ok.injEq _ _).mp h
  | cons i rest ih =>
    intro el res r h
    by_cases hc : exp ≤ i
    · simp only [interest.compoundedLoop, if_pos hc] at h
      simp only [interest.compoundedLoopT, if_pos hc]
      exact (Except.ok.injEq _ _).mp h
    · simp only [interest.compoundedLoop, if_neg hc] at h
      simp only [interest.compoundedLoopT, if_neg hc]
      obtain ⟨el1, hel1, h⟩ := bind_ok_inv h
      obtain ⟨el2, hel2, h⟩ := bind_ok_inv h
      obtain ⟨el3, hel3, h⟩ := bind_ok_inv h
      obtain ⟨res1, hres1, h⟩ := bind_ok_inv h
      obtain ⟨he1, -⟩ := mul128_ok hel1
      subst he1
      have he2 := ray_mul_ok hel2
      subst he2
      obtain ⟨he3, -⟩ := div0_ok hel3
      subst he3
      obtain ⟨hr1, -⟩ := add128_ok hres1
      subst hr1
      have := ih _ _ r h
      simpa [interest.rayMulT] using this

theorem compoundedLoopT_ge (rr exp : Nat) :
    ∀ (l : List Nat) (el res : Nat),
      res ≤ interest.compoundedLoopT rr exp l el res := by
  intro l
  induction l with
  | nil => intro el res; simp [interest.compoundedLoopT]
  | cons i rest ih =>
    intro el res
    by_cases hc : exp ≤ i
    · simp [interest.compoundedLoopT, if_pos hc]
    · simp only [interest.compoundedLoopT, if_neg hc]
      exact le_trans (Nat.le_add_right _ _) (ih _ _)

theorem rayMulT_mono {a b1 b2 : Nat} (h : b1 ≤ b2) :
    interest.rayMulT a b1 ≤ interest.rayMulT a b2 :=
  Nat.div_le_div_right (Nat.add_le_add_right (Nat.mul_le_mul le_rfl h) _)

theorem compoundedLoopT_mono (rr : Nat) {exp1 exp2 : Nat} (hexp : exp1 ≤ exp2) :
    ∀ (l : List Nat) {el1 el2 res1 res2 : Nat}, el1 ≤ el2 → res1 ≤ res2 →
      interest.compoundedLoopT rr exp1 l el1 res1 ≤
        interest.compoundedLoopT rr exp2 l el2 res2 := by
  intro l
  induction l with
  | nil =>
    intro el1 el2 res1 res2 _ hres
    simpa [interest.compoundedLoopT] using hres
  | cons i rest ih =>
    intro el1 el2 res1 res2 hel hres
    by_cases hc1 : exp1 ≤ i
    · simp only [interest.compoundedLoopT]
      rw [if_pos hc1]
      by_cases hc2 : exp2 ≤ i
      · rw [if_pos hc2]; exact hres
      · rw [if_neg hc2]
        exact le_trans hres (le_trans (Nat.le_add_right _ _)
          (compoundedLoopT_ge rr exp2 rest _ _))
    · have hc2 : ¬ exp2 ≤ i := fun h2 => hc1 (le_trans hexp h2)
      simp only [interest.compoundedLoopT]
      rw [if_neg hc1, if_neg hc2]
      have hel2 : interest.rayMulT rr (el1 * (exp1 - i)) / (i + 1) ≤
          interest.rayMulT rr (el2 * (exp2 - i)) / (i + 1) :=
        Nat.div_le_div_right
          (rayMulT_mono (Nat.mul_le_mul hel (Nat.sub_le_sub_right hexp i)))
      exact ih hel2 (Nat.add_le_add hres hel2)

theorem calculate_compounded_ok_eq {rate t ts r : Nat}
    (h : interest.calculate_compounded rate t ts = .ok r) :
    t ≤ ts ∧ r = interest.calculate_compoundedT rate t ts := by
  unfold interest.calculate_compounded at h
  obtain ⟨exp, hexp, h⟩ := bind_ok_inv h
  obtain ⟨he1, he2⟩ := subChk_ok hexp
  subst he1
  unfold interest.calculate_compoundedT
  by_cases hz : ts - t = 0
  · rw [if_pos hz] at h ⊢
    exact ⟨he2, ((Except.ok.injEq _ _).mp h).symm⟩
  · rw [if_neg hz] at h ⊢
    obtain ⟨el, hel, h⟩ := bind_ok_inv h
    obtain ⟨res, hres, h⟩ := bind_ok_inv h
    obtain ⟨he3, -⟩ := mul128_ok hel
    subst he3
    obtain ⟨he4, -⟩ := add128_ok hres
    subst he4
    exact ⟨he2, (compoundedLoop_ok_eq _ _ _ _ _ _ h).symm⟩

/-- C5.  Monotonicity of the truncated binomial compounding multiplier: for a
fixed positive rate and timestamps `t ≤ t1 ≤ t2` on which the checked
computation succeeds, the multiplier at `t2` dominates the multiplier at `t1`;
and at zero elapsed time the function returns exactly the multiplicative
identity `1.0` in `Ray` precision. -/
theorem calculate_compounded_monotone (rate t t1 t2 r1 r2 : Nat)
    (_hrate : 0 < rate) (h01 : t ≤ t1) (h12 : t1 ≤ t2)
    (e1 : interest.calculate_compounded rate t t1 = .ok r1)
    (e2 : interest.calculate_compounded rate t t2 = .ok r2) :
    r1 ≤ r2 ∧ interest.calculate_compounded rate t t = .ok RAY := by
  obtain ⟨-, hr1⟩ := calculate_compounded_ok_eq e1
  obtain ⟨-, hr2⟩ := calculate_compounded_ok_eq e2
  subst hr1
  subst hr2
  constructor
  · unfold interest.calculate_compoundedT
    by_cases h1z : t1 - t = 0
    · rw [if_pos h1z]
      by_cases h2z : t2 - t = 0
      · rw [if_pos h2z]
      · rw [if_neg h2z]
        exact le_trans (Nat.le_add_right _ _) (compoundedLoopT_ge _ _ _ _ _)
    · have h2z : t2 - t ≠ 0 := by omega
      rw [if_neg h1z, if_neg h2z]
      have hexp : t1 - t ≤ t2 - t := Nat.sub_le_sub_right h12 t
      exact compoundedLoopT_mono _ hexp _ (Nat.mul_le_mul le_rfl hexp)
        (Nat.add_le_add le_rfl (Nat.mul_le_mul le_rfl hexp))
  · simp [interest.calculate_compounded, subChk, Except.bind]

/-- Witness for C5 at rate 2e9 (2 in `Ray` per-second units), `t = 0`,
`t1 = 1`, `t2 = 2`. -/
theorem calculate_compounded_monotone_witness :
    (1000000000000000002 : Nat) ≤ 1000000000000000004 ∧
      interest.calculate_compounded 2000000000 0 0 = .ok RAY :=
  calculate_compounded_monotone 2000000000 0 1 2 1000000000000000002
    1000000000000000004 (by decide) (by decide) (by decide) (by decide) (by decide)

theorem ray_div_self {a : Nat} (h0 : 0 < a) (h1 : a < RAY) :
    Ray.ray_div a a = .ok RAY := by
  unfold Ray.ray_div
  have hb1 : a * RAY ≤ U128MAX :=
    le_trans (Nat.mul_le_mul h1.le le_rfl) (by decide)
  have hm : mul128 a RAY = .ok (a * RAY) := chk_of_le hb1
  rw [hm, ok_bind]
  have hb2 : a * RAY + a / 2 ≤ U128MAX := by
    have ha2 : a / 2 ≤ RAY := le_trans (Nat.div_le_self a 2) h1.le
    calc a * RAY + a / 2 ≤ RAY * RAY + RAY :=
          Nat.add_le_add (Nat.mul_le_mul h1.le le_rfl) ha2
      _ ≤ U128MAX := by decide
  have ha : add128 (a * RAY) (a / 2) = .ok (a * RAY + a / 2) := chk_of_le hb2
  rw [ha, ok_bind, div0_of_ne h0.ne']
  have hv : (a * RAY + a / 2) / a = RAY := by
    rw [Nat.mul_add_div h0]
    rw [Nat.div_eq_of_lt (Nat.div_lt_self h0 (by norm_num))]
    rw [Nat.add_zero]
  rw [hv]

theorem ray_div_zero_num {b : Nat} (h0 : 0 < b) (hb : b ≤ U128MAX) :
    Ray.ray_div 0 b = .ok 0 := by
  unfold Ray.ray_div
  have hm : mul128 0 RAY = .ok 0 := by
    unfold mul128
    rw [Nat.zero_mul]
    exact chk_of_le (Nat.zero_le _)
  rw [hm, ok_bind]
  have ha : add128 0 (b / 2) = .ok (b / 2) := by
    unfold add128
    rw [Nat.zero_add]
    exact chk_of_le (le_trans (Nat.div_le_self b 2) hb)
  rw [ha, ok_bind, div0_of_ne h0.ne']
  rw [Nat.div_eq_of_lt (Nat.div_lt_self h0 (by norm_num))]

theorem ray_mul_zero_right (a : Nat) : Ray.ray_mul a 0 = .ok 0 := by
  unfold Ray.ray_mul
  have hm : mul128 a 0 = .ok 0 := by
    unfold mul128
    rw [Nat.mul_zero]
    exact chk_of_le (Nat.zero_le _)
  rw [hm, ok_bind]
  have ha : add128 0 RAY_HALF = .ok RAY_HALF := by
    unfold add128
    rw [Nat.zero_add]
    exact chk_of_le (by decide)
  rw [ha, ok_bind, div0_of_ne (by decide : RAY ≠ 0)]
  norm_num [RAY_HALF, RAY]

/-- C6.  Continuity of the two-slope borrow-rate curve at the kink: on any
input whose computed utilization equals `optimal_utilization` exactly (with
`0 < optimal_utilization < 1` in `Ray` units), whenever `borrow_rate` returns
a value, both branch formulas evaluate to exactly
`base_borrow_rate.into_ray() + optimal_slope`, and the returned rate is that
common value rescaled by `as_rate`. -/
theorem borrow_rate_kink_continuity (debt liquidity base es os ou u v : Nat)
    (hou0 : 0 < ou) (hou1 : ou < RAY)
    (hu : interest.calculate_utilization debt liquidity = .ok u)
    (heq : u = ou)
    (hok : interest.borrow_rate debt liquidity base es os ou = .ok v) :
    interest.borrow_rate_optimal ou base os ou = .ok (Rate.into_ray base + os) ∧
    interest.borrow_rate_excess ou base es os ou = .ok (Rate.into_ray base + os) ∧
    Ray.as_rate (Rate.into_ray base + os) = .ok v := by
  subst heq
  unfold interest.borrow_rate at hok
  rw [hu, ok_bind, if_neg (lt_irrefl u)] at hok
  obtain ⟨w, hw, hrate⟩ := bind_ok_inv hok
  have hw0 := hw
  unfold interest.borrow_rate_optimal at hw
  rw [ray_div_self hou0 hou1, ok_bind] at hw
  obtain ⟨scaled, hscaled, hadd⟩ := bind_ok_inv hw
  have hs : scaled = os := by
    have h1 := ray_mul_ok hscaled
    rw [mul_comm] at h1
    rw [h1, Nat.mul_add_div (by decide : 0 < RAY)]
    norm_num [RAY_HALF, RAY]
  subst hs
  obtain ⟨hadd1, hadd2⟩ := add128_ok hadd
  subst hadd1
  refine ⟨hw0, ?_, hrate⟩
  unfold interest.borrow_rate_excess
  rw [hadd, ok_bind]
  unfold Ray.invert
  rw [subChk_of_le hou1.le, ok_bind, Nat.sub_self]
  have hinv0 : 0 < RAY - u := by omega
  have hinvle : RAY - u ≤ U128MAX := le_trans (Nat.sub_le _ _) (by decide)
  rw [ray_div_zero_num hinv0 hinvle, ok_bind]
  rw [ray_mul_zero_right es, ok_bind]
  unfold add128
  rw [Nat.add_zero]
  exact chk_of_le hadd2

/-- Witness for C6: pool with one unit of debt and one of liquidity, whose
utilization is exactly one half, against `optimal_utilization = 0.5 Ray` and
`optimal_slope = 7`. -/
theorem borrow_rate_kink_continuity_witness :
    interest.borrow_rate_optimal 500000000000000000 0 7 500000000000000000 =
      .ok (Rate.into_ray 0 + 7) ∧
    interest.borrow_rate_excess 500000000000000000 0 0 7 500000000000000000 =
      .ok (Rate.into_ray 0 + 7) ∧
    Ray.as_rate (Rate.into_ray 0 + 7) = .ok 7000000000 :=
  borrow_rate_kink_continuity 1 1 0 0 7 500000000000000000 500000000000000000
    7000000000 (by decide) (by decide) (by decide) (by decide) (by decide)

/-- C9.  Treasury accrual is monotone: whenever `Reserve::update_state`
succeeds, the new `treasure_accrued` is at least the old one, and when the
current total debt is zero the fee delta is a no-op and the accrual is exactly
unchanged. -/
theorem update_state_treasury_monotone (r : Reserve) (g : Governance)
    (total_debt timestamp : Nat) (r1 : Reserve)
    (h : r.update_state g total_debt timestamp = .ok r1) :
    r.state.treasure_accrued ≤ r1.state.treasure_accrued ∧
    (total_debt = 0 → r1.state.treasure_accrued = r.state.treasure_accrued) := by
  unfold Reserve.update_state at h
  obtain ⟨acc, hacc, h⟩ := bind_ok_inv h
  have hr1 : r1.state.treasure_accrued = acc := by
    have := (Except.ok.injEq _ _).mp h
    rw [← this]
  unfold Reserve.get_liquidity_fee_accrued at hacc
  obtain ⟨fee, hfee, hadd⟩ := bind_ok_inv hacc
  obtain ⟨ha1, -⟩ := add64_ok hadd
  constructor
  · rw [hr1, ha1]; exact Nat.le_add_right _ _
  · intro hz
    rw [if_pos hz] at hfee
    have : fee = 0 := ((Except.ok.injEq _ _).mp hfee).symm
    rw [hr1, ha1, this, Nat.add_zero]

/-- Witness for C9: updating `reserveEx` (treasury 7) at time 5 with zero
current debt keeps the accrued treasury at exactly 7. -/
theorem update_state_treasury_monotone_witness :
    reserveEx.state.treasure_accrued ≤ reserveEx2.state.treasure_accrued ∧
    ((0 : Nat) = 0 →
      reserveEx2.state.treasure_accrued = reserveEx.state.treasure_accrued) :=
  update_state_treasury_monotone reserveEx govEx 0 5 reserveEx2 (by decide)

/-- C3.  Last-borrower zeroing: whenever `Reserve::decrease_debt` succeeds and
either the repaid amount covers the whole pool total (`total ≤ change`, which
includes `change = total`) or the position's rate-weighted contribution is at
least the pool's rate-weighted total, the resulting pool debt and average rate
are both exactly zero — the pool never keeps a negative remainder. -/
theorem decrease_debt_last_borrower_zeroing (r : Reserve)
    (pos : SwapPositionState) (timestamp total change : Nat) (r1 : Reserve)
    (pos1 : SwapPositionState)
    (h : r.decrease_debt pos timestamp total change = .ok (r1, pos1))
    (hcond : total ≤ change ∨
      ∃ ft st, r.decrease_first_term total = .ok ft ∧
        Reserve.decrease_second_term pos change = .ok st ∧ ft ≤ st) :
    r1.debt.total = 0 ∧ r1.debt.average_rate = 0 := by
  unfold Reserve.decrease_debt at h
  obtain ⟨ci, hci, h⟩ := bind_ok_inv h
  obtain ⟨rt, hrt, h⟩ := bind_ok_inv h
  obtain ⟨p1, hp1, h⟩ := bind_ok_inv h
  have hpair := (Except.ok.injEq _ _).mp h
  have hrr : r1 = { r with debt := { average_rate := rt.1, total := rt.2,
                                     last_update := timestamp } } :=
    (congrArg Prod.fst hpair).symm
  have hzero : rt = (0, 0) := by
    by_cases hle : total ≤ change
    · rw [if_pos hle] at hrt
      exact ((Except.ok.injEq _ _).mp hrt).symm
    · rcases hcond with hc | ⟨ft, st, hft, hst, hle2⟩
      · exact (hle hc).elim
      · rw [if_neg hle] at hrt
        obtain ⟨nt, hnt, hrt⟩ := bind_ok_inv hrt
        obtain ⟨ft2, hft2, hrt⟩ := bind_ok_inv hrt
        obtain ⟨st2, hst2, hrt⟩ := bind_ok_inv hrt
        have heft : ft2 = ft := (Except.ok.injEq _ _).mp (hft2.symm.trans hft)
        have hest : st2 = st := (Except.ok.injEq _ _).mp (hst2.symm.trans hst)
        subst heft
        subst hest
        rw [if_pos hle2] at hrt
        exact ((Except.ok.injEq _ _).mp hrt).symm
  rw [hrr, hzero]
  exact ⟨rfl, rfl⟩

/-- Witness for C3: fully repaying a pool total of 5 with a matching position
leaves both the pool debt and the average rate at zero. -/
theorem decrease_debt_last_borrower_zeroing_witness :
    reserveEx3.debt.total = 0 ∧ reserveEx3.debt.average_rate = 0 :=
  decrease_debt_last_borrower_zeroing reserveEx posEx 10 5 5 reserveEx3
    posExZero (by decide) (Or.inl (by decide))

theorem ne_err_bind {α β : Type} {x : Except WowError α}
    {f : α → Except WowError β} {e : WowError} (hx : x ≠ .error e)
    (hf : ∀ v, x = .ok v → f v ≠ .error e) : x.bind f ≠ .error e := by
  cases x with
  | error e2 =>
    intro hc
    rw [error_bind] at hc
    have he : e2 = e := (Except.error.injEq _ _).mp hc
    exact hx (by rw [he])
  | ok a => exact hf a rfl

theorem chk_ndz (m v : Nat) : chk m v ≠ .error .divByZero := by
  unfold chk; split <;> simp

theorem add64_ndz (a b : Nat) : add64 a b ≠ .error .divByZero := chk_ndz _ _

theorem add128_ndz (a b : Nat) : add128 a b ≠ .error .divByZero := chk_ndz _ _

theorem mul128_ndz (a b : Nat) : mul128 a b ≠ .error .divByZero := chk_ndz _ _

theorem subChk_ndz (a b : Nat) : subChk a b ≠ .error .divByZero := by
  unfold subChk; split <;> simp

theorem div0_ndz {a b : Nat} (hb : b ≠ 0) (e : WowError) :
    div0 a b ≠ .error e := by
  rw [div0_of_ne hb]; simp

theorem ray_mul_ndz (a b : Nat) : Ray.ray_mul a b ≠ .error .divByZero := by
  unfold Ray.ray_mul
  apply ne_err_bind (mul128_ndz _ _)
  intro v _
  apply ne_err_bind (add128_ndz _ _)
  intro w _
  exact div0_ndz (by decide) _

theorem ray_div_ndz {a b : Nat} (hb : b ≠ 0) :
    Ray.ray_div a b ≠ .error .divByZero := by
  unfold Ray.ray_div
  apply ne_err_bind (mul128_ndz _ _)
  intro v _
  apply ne_err_bind (add128_ndz _ _)
  intro w _
  exact div0_ndz hb _

theorem as_rate_ndz (a : Nat) : Ray.as_rate a ≠ .error .divByZero :=
  mul128_ndz _ _

theorem invert_ndz (a : Nat) : Ray.invert a ≠ .error .divByZero :=
  subChk_ndz _ _

theorem calculate_utilization_ndz {debt liquidity : Nat}
    (h : 0 < liquidity + debt) :
    interest.calculate_utilization debt liquidity ≠ .error .divByZero := by
  unfold interest.calculate_utilization
  apply ne_err_bind (add128_ndz _ _)
  intro s hs
  obtain ⟨hs1, -⟩ := add128_ok hs
  subst hs1
  exact ray_div_ndz (by omega)

theorem borrow_rate_excess_ndz {u base es os ou : Nat} (hou1 : ou < RAY) :
    interest.borrow_rate_excess u base es os ou ≠ .error .divByZero := by
  unfold interest.borrow_rate_excess
  apply ne_err_bind (add128_ndz _ _)
  intro v _
  apply ne_err_bind (invert_ndz _)
  intro inv hinv
  obtain ⟨hi1, -⟩ := subChk_ok hinv
  subst hi1
  apply ne_err_bind (ray_div_ndz (by omega))
  intro ratio _
  apply ne_err_bind (ray_mul_ndz _ _)
  intro extra _
  exact add128_ndz _ _

theorem borrow_rate_optimal_ndz {u base os ou : Nat} (hou0 : ou ≠ 0) :
    interest.borrow_rate_optimal u base os ou ≠ .error .divByZero := by
  unfold interest.borrow_rate_optimal
  apply ne_err_bind (ray_div_ndz hou0)
  intro ratio _
  apply ne_err_bind (ray_mul_ndz _ _)
  intro scaled _
  exact add128_ndz _ _

theorem borrow_rate_ndz {debt liquidity base es os ou : Nat}
    (hpos : 0 < debt + liquidity) (hou0 : 0 < ou) (hou1 : ou < RAY) :
    interest.borrow_rate debt liquidity base es os ou ≠ .error .divByZero := by
  unfold interest.borrow_rate
  apply ne_err_bind (calculate_utilization_ndz (by omega))
  intro u _
  apply ne_err_bind ?_ ?_
  · split
    · exact borrow_rate_excess_ndz hou1
    · exact borrow_rate_optimal_ndz hou0.ne'
  · intro v _
    exact as_rate_ndz v

/-- C10.  Division-by-zero safety boundary of the borrow-rate curve: for any
pool state with `debt + liquidity > 0` and valid `optimal_utilization`
(strictly between 0 and 1 in `Ray` units) `borrow_rate` never aborts with a
division by zero; but on the input `debt = 0, liquidity = 0` the utilization
computation `debt / (liquidity + debt)` divides by zero and the operation
faults regardless of the governance parameters — and this state is reachable
through `Reserve::update_borrow_rate` whenever a withdrawal removes the whole
vault balance of a pool with no outstanding debt. -/
theorem borrow_rate_div_by_zero :
    (∀ debt liquidity base es os ou : Nat, 0 < debt + liquidity → 0 < ou →
      ou < RAY →
      interest.borrow_rate debt liquidity base es os ou ≠ .error .divByZero) ∧
    (∀ base es os ou : Nat,
      interest.borrow_rate 0 0 base es os ou = .error .divByZero) ∧
    (∀ (r : Reserve) (g : Governance) (l : Nat), l ≤ U64MAX →
      r.update_borrow_rate g l 0 l 0 0 0 = .error .divByZero) := by
  refine ⟨?_, ?_, ?_⟩
  · intro debt liquidity base es os ou hpos hou0 hou1
    exact borrow_rate_ndz hpos hou0 hou1
  · intro base es os ou
    unfold interest.borrow_rate
    rw [show interest.calculate_utilization 0 0 = .error .divByZero from by decide]
    rfl
  · intro r g l hl
    unfold Reserve.update_borrow_rate
    rw [show add64 0 0 = .ok 0 from by decide, ok_bind]
    rw [show subChk 0 0 = .ok 0 from by decide, ok_bind]
    have h3 : add64 l 0 = .ok l := by
      unfold add64
      rw [Nat.add_zero]
      exact chk_of_le hl
    rw [h3, ok_bind]
    rw [subChk_of_le le_rfl, ok_bind, Nat.sub_self]
    unfold interest.borrow_rate
    rw [show interest.calculate_utilization 0 0 = .error .divByZero from by decide]
    rfl

/-- Witness for C10: a pool with one unit of debt cannot hit the division by
zero. -/
theorem borrow_rate_div_by_zero_witness :
    interest.borrow_rate 1 0 0 0 0 1 ≠ .error .divByZero :=
  borrow_rate_div_by_zero.1 1 0 0 0 0 1 (by decide) (by decide) (by decide)

theorem increase_debt_total {r : Reserve} {pos : SwapPositionState}
    {ts prev amt rm : Nat} {rp : Reserve × SwapPositionState}
    (h : r.increase_debt pos ts prev amt rm = .ok rp) :
    rp.1.debt.total = prev + amt ∧ rp.2.loan = pos.loan := by
  unfold Reserve.increase_debt at h
  obtain ⟨rate, -, h⟩ := bind_ok_inv h
  obtain ⟨aw, -, h⟩ := bind_ok_inv h
  obtain ⟨amrr, -, h⟩ := bind_ok_inv h
  obtain ⟨ci, -, h⟩ := bind_ok_inv h
  obtain ⟨nt, hnt, h⟩ := bind_ok_inv h
  obtain ⟨pa1, -, h⟩ := bind_ok_inv h
  obtain ⟨pa, -, h⟩ := bind_ok_inv h
  obtain ⟨cdw, -, h⟩ := bind_ok_inv h
  obtain ⟨t1, -, h⟩ := bind_ok_inv h
  obtain ⟨t2, -, h⟩ := bind_ok_inv h
  obtain ⟨ds, -, h⟩ := bind_ok_inv h
  obtain ⟨dw, -, h⟩ := bind_ok_inv h
  obtain ⟨prr, -, h⟩ := bind_ok_inv h
  obtain ⟨pr, -, h⟩ := bind_ok_inv h
  obtain ⟨ptw, -, h⟩ := bind_ok_inv h
  obtain ⟨a1, -, h⟩ := bind_ok_inv h
  obtain ⟨a2, -, h⟩ := bind_ok_inv h
  obtain ⟨ntw, -, h⟩ := bind_ok_inv h
  obtain ⟨arr, -, h⟩ := bind_ok_inv h
  obtain ⟨avg, -, h⟩ := bind_ok_inv h
  obtain ⟨hntv, -⟩ := add64_ok hnt
  have hp := (Except.ok.injEq _ _).mp h
  rw [← hp]
  exact ⟨hntv, rfl⟩

/-- C4.  Pool-utilization borrow gate of `SwapPositionOpen::handle`: when a
positive residual loan is to be recorded, the operation succeeds only if the
swap's total outstanding loan after adding the new loan is strictly below
`pool_utilization_allowance` percent of the total liquidity
(`projected pool debt + reserve vault balance - treasure_accrued`), and in
that case the new loan is registered on the swap total, the position and the
pool debt; if the incremented total is not strictly below the limit, the
operation fails with the borrow-limit-exceeded error (so no state change is
committed). -/
theorem open_borrow_limit_gate (stl : Nat) (pos : SwapPositionState)
    (r : Reserve) (g : Governance) (vault lf mlf loan ts : Nat)
    (hloan : 0 < loan) :
    (∀ stl1 pos1 r1,
      openRegisterDebt stl pos r g vault lf mlf loan ts = .ok (stl1, pos1, r1) →
      ∃ pu td tl bl blim, g.poolUtilizationAllowance = .ok pu ∧
        r.debt.get_total_debt ts = .ok td ∧
        r.get_total_liquidity td vault = .ok tl ∧
        Factor.percentage_mul pu tl = .ok bl ∧ fromU128 bl = .ok blim ∧
        stl + loan < blim ∧ stl1 = stl + loan ∧ pos1.loan = pos.loan + loan ∧
        r1.debt.total = td + loan) ∧
    (∀ pu td tl bl blim,
      stl + loan ≤ U64MAX → pos.loan + loan ≤ U64MAX →
      g.poolUtilizationAllowance = .ok pu →
      r.debt.get_total_debt ts = .ok td →
      r.get_total_liquidity td vault = .ok tl →
      Factor.percentage_mul pu tl = .ok bl → fromU128 bl = .ok blim →
      blim ≤ stl + loan →
      openRegisterDebt stl pos r g vault lf mlf loan ts =
        .error .borrowLimitExceeded) := by
  constructor
  · intro stl1 pos1 r1 h
    unfold openRegisterDebt at h
    rw [if_neg hloan.ne'] at h
    obtain ⟨s1, hs1, h⟩ := bind_ok_inv h
    obtain ⟨pl1, hpl1, h⟩ := bind_ok_inv h
    obtain ⟨pu, hpu, h⟩ := bind_ok_inv h
    obtain ⟨td, htd, h⟩ := bind_ok_inv h
    obtain ⟨tl, htl, h⟩ := bind_ok_inv h
    obtain ⟨bl, hbl, h⟩ := bind_ok_inv h
    obtain ⟨blim, hblim, h⟩ := bind_ok_inv h
    obtain ⟨hs1v, -⟩ := add64_ok hs1
    obtain ⟨hpl1v, -⟩ := add64_ok hpl1
    subst hs1v
    subst hpl1v
    by_cases hlt : stl + loan < blim
    · rw [if_pos hlt] at h
      obtain ⟨mrm, -, h⟩ := bind_ok_inv h
      obtain ⟨a, -, h⟩ := bind_ok_inv h
      obtain ⟨b, -, h⟩ := bind_ok_inv h
      obtain ⟨ab, -, h⟩ := bind_ok_inv h
      obtain ⟨c, -, h⟩ := bind_ok_inv h
      obtain ⟨q, -, h⟩ := bind_ok_inv h
      obtain ⟨rm, -, h⟩ := bind_ok_inv h
      obtain ⟨ru1, -, h⟩ := bind_ok_inv h
      obtain ⟨ru2, -, h⟩ := bind_ok_inv h
      obtain ⟨rp, hrp, h⟩ := bind_ok_inv h
      obtain ⟨hrp1, hrp2⟩ := increase_debt_total hrp
      have hfinal := (Except.ok.injEq _ _).mp h
      have hst : stl1 = stl + loan := (congrArg Prod.fst hfinal).symm
      have hpos1 : pos1 = rp.2 := (congrArg (fun t => t.2.1) hfinal).symm
      have hres1 : r1 = rp.1 := (congrArg (fun t => t.2.2) hfinal).symm
      refine ⟨pu, td, tl, bl, blim, hpu, htd, htl, hbl, hblim, hlt, hst, ?_, ?_⟩
      · rw [hpos1, hrp2]
      · rw [hres1, hrp1]
    · rw [if_neg hlt] at h
      exact absurd h (by simp)
  · intro pu td tl bl blim hle1 hle2 hpu htd htl hbl hblim hge
    unfold openRegisterDebt
    rw [if_neg hloan.ne']
    rw [show add64 stl loan = .ok (stl + loan) from chk_of_le hle1, ok_bind]
    rw [show add64 pos.loan loan = .ok (pos.loan + loan) from chk_of_le hle2,
      ok_bind]
    rw [hpu, ok_bind, htd, ok_bind, htl, ok_bind, hbl, ok_bind, hblim, ok_bind]
    rw [if_neg (by omega)]

/-- Witness for C4: attempting to push the swap total loan to 110 against a
borrow limit of 50 fails with the borrow-limit-exceeded error. -/
theorem open_borrow_limit_gate_witness :
    openRegisterDebt 100 posExZero reserveOpen govEx 100 20000 20000 10 3 =
      .error .borrowLimitExceeded :=
  (open_borrow_limit_gate 100 posExZero reserveOpen govEx 100 20000 20000 10 3
      (by decide)).2 5000 0 100 50 50 (by decide) (by decide) (by decide)
    (by decide) (by decide) (by decide) (by decide) (by decide)

theorem nh_bind {α β : Type} {x : Except WowError α}
    {f : α → Except WowError β} (hx : NeverHealthy x)
    (hf : ∀ v, x = .ok v → NeverHealthy (f v)) : NeverHealthy (x.bind f) :=
  ne_err_bind hx hf

theorem ok_nh {α : Type} (a : α) :
    NeverHealthy (Except.ok a : Except WowError α) := by
  simp [NeverHealthy]

theorem chk_nh (m v : Nat) : NeverHealthy (chk m v) := by
  unfold NeverHealthy chk; split <;> simp

theorem subChk_nh (a b : Nat) : NeverHealthy (subChk a b) := by
  unfold NeverHealthy subChk; split <;> simp

theorem div0_nh (a b : Nat) : NeverHealthy (div0 a b) := by
  unfold NeverHealthy div0; split <;> simp

theorem ray_mul_nh (a b : Nat) : NeverHealthy (Ray.ray_mul a b) := by
  unfold Ray.ray_mul
  exact nh_bind (chk_nh _ _) fun v _ =>
    nh_bind (chk_nh _ _) fun w _ => div0_nh _ _

theorem ray_div_nh (a b : Nat) : NeverHealthy (Ray.ray_div a b) := by
  unfold Ray.ray_div
  exact nh_bind (chk_nh _ _) fun v _ =>
    nh_bind (chk_nh _ _) fun w _ => div0_nh _ _

theorem percentage_mul_nh (f v : Nat) :
    NeverHealthy (Factor.percentage_mul f v) := by
  unfold Factor.percentage_mul
  exact nh_bind (chk_nh _ _) fun x _ =>
    nh_bind (chk_nh _ _) fun w _ => div0_nh _ _

theorem apply_accuracy_nh (v : Nat) :
    NeverHealthy (Governance.apply_accuracy v) := by
  unfold NeverHealthy Governance.apply_accuracy; split <;> simp

theorem compoundedLoop_nh (rr exp : Nat) :
    ∀ (l : List Nat) (el res : Nat),
      NeverHealthy (interest.compoundedLoop rr exp l el res) := by
  intro l
  induction l with
  | nil =>
    intro el res
    simp only [interest.compoundedLoop]
    exact ok_nh _
  | cons i rest ih =>
    intro el res
    simp only [interest.compoundedLoop]
    split
    · exact ok_nh _
    · apply nh_bind (chk_nh _ _)
      intro el1 _
      apply nh_bind (ray_mul_nh _ _)
      intro el2 _
      apply nh_bind (div0_nh _ _)
      intro el3 _
      apply nh_bind (chk_nh _ _)
      intro res1 _
      exact ih _ _

theorem calculate_compounded_nh (rate t ts : Nat) :
    NeverHealthy (interest.calculate_compounded rate t ts) := by
  unfold interest.calculate_compounded
  apply nh_bind (subChk_nh _ _)
  intro exp _
  split
  · exact ok_nh _
  · apply nh_bind (chk_nh _ _)
    intro el _
    apply nh_bind (chk_nh _ _)
    intro res _
    exact compoundedLoop_nh _ _ _ _ _

theorem get_total_debt_nh (d : ReserveDebt) (ts : Nat) :
    NeverHealthy (d.get_total_debt ts) := by
  unfold ReserveDebt.get_total_debt
  apply nh_bind (calculate_compounded_nh _ _ _)
  intro c _
  apply nh_bind (ray_mul_nh _ _)
  intro v _
  exact chk_nh _ _

theorem get_debt_nh (p : SwapPositionState) (ts : Nat) :
    NeverHealthy (p.get_debt ts) := by
  unfold SwapPositionState.get_debt
  apply nh_bind (calculate_compounded_nh _ _ _)
  intro c _
  apply nh_bind (ray_mul_nh _ _)
  intro v _
  exact chk_nh _ _

theorem calculate_debt_increase_nh (p : SwapPositionState) (ts : Nat) :
    NeverHealthy (p.calculate_debt_increase ts) := by
  unfold SwapPositionState.calculate_debt_increase
  split
  · exact ok_nh _
  · apply nh_bind (get_debt_nh _ _)
    intro cd _
    apply nh_bind (subChk_nh _ _)
    intro inc _
    exact ok_nh _

theorem get_liquidity_fee_accrued_nh (r : Reserve) (g : Governance) (cd : Nat) :
    NeverHealthy (r.get_liquidity_fee_accrued g cd) := by
  unfold Reserve.get_liquidity_fee_accrued
  apply nh_bind ?_ ?_
  · split
    · exact ok_nh _
    · apply nh_bind (calculate_compounded_nh _ _ _)
      intro c _
      apply nh_bind (ray_mul_nh _ _)
      intro v _
      apply nh_bind (chk_nh _ _)
      intro prev _
      apply nh_bind (subChk_nh _ _)
      intro da _
      apply nh_bind (apply_accuracy_nh _)
      intro tf _
      apply nh_bind (percentage_mul_nh _ _)
      intro fee128 _
      exact chk_nh _ _
  · intro fee _
    exact chk_nh _ _

theorem update_state_nh (r : Reserve) (g : Governance) (td ts : Nat) :
    NeverHealthy (r.update_state g td ts) := by
  unfold Reserve.update_state
  apply nh_bind (get_liquidity_fee_accrued_nh _ _ _)
  intro acc _
  exact ok_nh _

theorem decrease_first_term_nh (r : Reserve) (total : Nat) :
    NeverHealthy (r.decrease_first_term total) := by
  unfold Reserve.decrease_first_term
  apply nh_bind (chk_nh _ _)
  intro t _
  exact ray_mul_nh _ _

theorem decrease_second_term_nh (p : SwapPositionState) (change : Nat) :
    NeverHealthy (Reserve.decrease_second_term p change) := by
  unfold Reserve.decrease_second_term
  apply nh_bind (chk_nh _ _)
  intro t _
  exact ray_mul_nh _ _

theorem decrease_debt_nh (r : Reserve) (p : SwapPositionState)
    (ts total change : Nat) : NeverHealthy (r.decrease_debt p ts total change) := by
  unfold Reserve.decrease_debt
  apply nh_bind (calculate_debt_increase_nh _ _)
  intro ci _
  apply nh_bind ?_ ?_
  · split
    · exact ok_nh _
    · apply nh_bind (subChk_nh _ _)
      intro nt _
      apply nh_bind (decrease_first_term_nh _ _)
      intro ft _
      apply nh_bind (decrease_second_term_nh _ _)
      intro st _
      split
      · exact ok_nh _
      · apply nh_bind (subChk_nh _ _)
        intro num _
        apply nh_bind (chk_nh _ _)
        intro ntw _
        apply nh_bind (ray_div_nh _ _)
        intro v _
        apply nh_bind (chk_nh _ _)
        intro avg _
        exact ok_nh _
  · intro rt _
    apply nh_bind ?_ ?_
    · split
      · exact ok_nh _
      · apply nh_bind (chk_nh _ _)
        intro a1 _
        apply nh_bind (subChk_nh _ _)
        intro a2 _
        exact ok_nh _
    · intro p1 _
      exact ok_nh _

theorem calculate_utilization_nh (d l : Nat) :
    NeverHealthy (interest.calculate_utilization d l) := by
  unfold interest.calculate_utilization
  apply nh_bind (chk_nh _ _)
  intro s _
  exact ray_div_nh _ _

theorem borrow_rate_nh (d l base es os ou : Nat) :
    NeverHealthy (interest.borrow_rate d l base es os ou) := by
  unfold interest.borrow_rate
  apply nh_bind (calculate_utilization_nh _ _)
  intro u _
  apply nh_bind ?_ ?_
  · split
    · unfold interest.borrow_rate_excess
      apply nh_bind (chk_nh _ _)
      intro v _
      apply nh_bind (subChk_nh _ _)
      intro inv _
      apply nh_bind (ray_div_nh _ _)
      intro ratio _
      apply nh_bind (ray_mul_nh _ _)
      intro extra _
      exact chk_nh _ _
    · unfold interest.borrow_rate_optimal
      apply nh_bind (ray_div_nh _ _)
      intro ratio _
      apply nh_bind (ray_mul_nh _ _)
      intro scaled _
      exact chk_nh _ _
  · intro v _
    exact chk_nh _ _

theorem update_borrow_rate_nh (r : Reserve) (g : Governance)
    (l la lr td da dr : Nat) :
    NeverHealthy (r.update_borrow_rate g l la lr td da dr) := by
  unfold Reserve.update_borrow_rate
  apply nh_bind (chk_nh _ _)
  intro d1 _
  apply nh_bind (subChk_nh _ _)
  intro debt _
  apply nh_bind (chk_nh _ _)
  intro l1 _
  apply nh_bind (subChk_nh _ _)
  intro liq _
  apply nh_bind (borrow_rate_nh _ _ _ _ _ _)
  intro br _
  exact ok_nh _

theorem pay_liquidation_reward_nh (g : Governance) (amount : Nat) :
    NeverHealthy (pay_liquidation_reward g amount) := by
  unfold pay_liquidation_reward
  apply nh_bind (apply_accuracy_nh _)
  intro mr _
  apply nh_bind (apply_accuracy_nh _)
  intro lr _
  apply nh_bind (percentage_mul_nh _ _)
  intro v _
  apply nh_bind (chk_nh _ _)
  intro r0 _
  apply nh_bind (subChk_nh _ _)
  intro left _
  exact ok_nh _

theorem liquidateReserveUpdate_nh (p : SwapPositionState) (r : Reserve)
    (g : Governance) (ts dc vault : Nat) :
    NeverHealthy (liquidateReserveUpdate p r g ts dc vault) := by
  unfold liquidateReserveUpdate
  apply nh_bind (get_total_debt_nh _ _)
  intro td _
  apply nh_bind (update_state_nh _ _ _ _)
  intro r1 _
  apply nh_bind (decrease_debt_nh _ _ _ _ _)
  intro rp _
  apply nh_bind (get_total_debt_nh _ _)
  intro td2 _
  apply nh_bind (update_borrow_rate_nh _ _ _ _ _ _ _ _)
  intro r3 _
  exact ok_nh _

/-- C2.  The post-sale solvency gate of `SwapPositionLiquidate::handle`: the
operation fails with the liquidate-healthy-position error exactly when the
realized proceeds of the forced sale of the entire receipt-token balance
strictly exceed the position's projected debt plus `liquidation_margin`
percent of that debt.  The comparison is made against the quote-vault balance
observed *after* the sale (`proceeds`), i.e. the check runs after the forced
sale, and the error aborts the transaction so no reserve or position state is
committed. -/
theorem liquidate_healthy_gate (pos : SwapPositionState) (r : Reserve)
    (g : Governance) (stl ts pb lc lp proceeds vault : Nat) :
    (liquidate pos r g stl ts pb lc lp proceeds vault =
        .error .liquidateHealthyPosition →
      ∃ cd cost, pos.get_debt ts = .ok cd ∧ liquidationCost g cd = .ok cost ∧
        cost < proceeds) ∧
    (∀ cd cost, pos.get_debt ts = .ok cd → liquidationCost g cd = .ok cost →
      lc ≠ 0 → pb / lc ≠ 0 → lp ≠ 0 → lp * (pb / lc) ≤ U64MAX →
      cost < proceeds →
      liquidate pos r g stl ts pb lc lp proceeds vault =
        .error .liquidateHealthyPosition) := by
  constructor
  · intro h
    unfold liquidate at h
    cases hgd : pos.get_debt ts with
    | error e =>
      rw [hgd, error_bind] at h
      have he := (Except.error.injEq _ _).mp h
      subst he
      exact absurd hgd (get_debt_nh _ _)
    | ok cd =>
      rw [hgd, ok_bind] at h
      cases hcost : liquidationCost g cd with
      | error e =>
        rw [hcost, error_bind] at h
        have he := (Except.error.injEq _ _).mp h
        subst he
        refine absurd hcost ?_
        unfold liquidationCost
        apply nh_bind (apply_accuracy_nh _)
        intro m _
        apply nh_bind (percentage_mul_nh _ _)
        intro m128 _
        apply nh_bind (chk_nh _ _)
        intro mm _
        exact chk_nh _ _
      | ok cost =>
        rw [hcost, ok_bind] at h
        cases hdv : div0 pb lc with
        | error e =>
          rw [hdv, error_bind] at h
          have he := (Except.error.injEq _ _).mp h
          subst he
          exact absurd hdv (div0_nh _ _)
        | ok q =>
          rw [hdv, ok_bind] at h
          by_cases hq : q = 0
          · rw [if_pos hq, error_bind] at h
            simp at h
          · rw [if_neg hq, ok_bind] at h
            by_cases hlp : lp = 0
            · rw [if_pos hlp, error_bind] at h
              simp at h
            · rw [if_neg hlp, ok_bind] at h
              by_cases hnp : lp * q ≤ U64MAX ∧ 0 < lp * q
              · rw [if_pos hnp, ok_bind] at h
                by_cases hgate : cost < proceeds
                · exact ⟨cd, cost, rfl, hcost, hgate⟩
                · rw [if_neg hgate] at h
                  refine absurd h ?_
                  apply nh_bind (pay_liquidation_reward_nh _ _)
                  intro rw1 _
                  apply nh_bind (subChk_nh _ _)
                  intro stl1 _
                  apply nh_bind (liquidateReserveUpdate_nh _ _ _ _ _ _)
                  intro rp _
                  exact ok_nh _
              · rw [if_neg hnp, error_bind] at h
                simp at h
  · intro cd cost hgd hcost hlc hq hlp hbound hgate
    unfold liquidate
    rw [hgd, ok_bind, hcost, ok_bind]
    rw [div0_of_ne hlc, ok_bind]
    rw [if_neg hq, ok_bind]
    rw [if_neg hlp, ok_bind]
    have hp : 0 < lp * (pb / lc) :=
      Nat.mul_pos (Nat.pos_of_ne_zero hlp) (Nat.pos_of_ne_zero hq)
    rw [if_pos ⟨hbound, hp⟩, ok_bind]
    rw [if_pos hgate]

/-- Witness for C2: liquidating `posLiq` with proceeds of 101 against a
liquidation cost of 100 fails with the healthy-position error. -/
theorem liquidate_healthy_gate_witness :
    liquidate posLiq reserveLiq govLiq 100 7 10 1 1 101 1000 =
      .error .liquidateHealthyPosition :=
  (liquidate_healthy_gate posLiq reserveLiq govLiq 100 7 10 1 1 101 1000).2
    100 100 (by decide) (by decide) (by decide) (by decide) (by decide)
    (by decide) (by decide)

/-- Counterexample to C1: a liquidation that passes the solvency gate can pay
a reward strictly exceeding `max_liquidation_reward`, because the code treats
a zero cap as "no cap".  Here the governance cap is 0, the proceeds are 100,
and the liquidator is paid 50 (the 50% `liquidation_reward` share), which is
not bounded by the cap. -/
theorem liquidate_reward_cap_counterexample :
    liquidate posLiq reserveLiq govLiq 100 7 10 1 1 100 1000 =
      .ok liqOutcomeEx ∧
    liqOutcomeEx.reward = 50 ∧
    Governance.maxLiquidationReward govLiq = .ok 0 ∧
    ¬ (liqOutcomeEx.reward ≤ 0) :=
  ⟨by decide, by decide, by decide, by decide⟩

/-- C1 (amended).  In every liquidation that passes the solvency gate, the
reward transferred to the liquidator equals the `liquidation_reward`
percentage of the forced-sale proceeds, except when `max_liquidation_reward`
is nonzero and smaller than that percentage, in which case the reward is the
cap itself; consequently the reward never exceeds the cap whenever the cap is
nonzero (a zero cap disables the bound). -/
theorem liquidate_reward_formula (pos : SwapPositionState) (r : Reserve)
    (g : Governance) (stl ts pb lc lp proceeds vault : Nat)
    (out : LiquidateOutcome)
    (h : liquidate pos r g stl ts pb lc lp proceeds vault = .ok out) :
    ∃ maxr pct, g.maxLiquidationReward = .ok maxr ∧
      (g.liquidationReward).bind (fun lr =>
        (Factor.percentage_mul lr proceeds).bind fromU128) = .ok pct ∧
      out.reward = (if maxr ≠ 0 ∧ maxr < pct then maxr else pct) ∧
      (maxr ≠ 0 → out.reward ≤ maxr) := by
  unfold liquidate at h
  obtain ⟨cd, hcd, h⟩ := bind_ok_inv h
  obtain ⟨cost, hcost, h⟩ := bind_ok_inv h
  obtain ⟨q0, hq0, h⟩ := bind_ok_inv h
  obtain ⟨q, hq, h⟩ := bind_ok_inv h
  obtain ⟨pclot, hpclot, h⟩ := bind_ok_inv h
  obtain ⟨npq, hnpq, h⟩ := bind_ok_inv h
  by_cases hgate : cost < proceeds
  · rw [if_pos hgate] at h
    exact absurd h (by simp)
  · rw [if_neg hgate] at h
    obtain ⟨rw1, hpay, h⟩ := bind_ok_inv h
    obtain ⟨stl1, -, h⟩ := bind_ok_inv h
    obtain ⟨rp, -, h⟩ := bind_ok_inv h
    have hout := (Except.ok.injEq _ _).mp h
    have hrw : out.reward = rw1.1 := by rw [← hout]
    unfold pay_liquidation_reward at hpay
    obtain ⟨maxr, hmaxr, hpay⟩ := bind_ok_inv hpay
    obtain ⟨lr, hlr, hpay⟩ := bind_ok_inv hpay
    obtain ⟨v, hv, hpay⟩ := bind_ok_inv hpay
    obtain ⟨pct, hpct, hpay⟩ := bind_ok_inv hpay
    obtain ⟨left, hleft, hpay⟩ := bind_ok_inv hpay
    have hrw1 := congrArg Prod.fst ((Except.ok.injEq _ _).mp hpay)
    refine ⟨maxr, pct, hmaxr, ?_, ?_, ?_⟩
    · rw [hlr, ok_bind, hv, ok_bind]
      exact hpct
    · rw [hrw, ← hrw1]
    · intro hne
      rw [hrw, ← hrw1]
      by_cases hc : maxr ≠ 0 ∧ maxr < pct
      · rw [if_pos hc]
      · rw [if_neg hc]
        exact Nat.le_of_not_lt fun hlt => hc ⟨hne, hlt⟩

/-- Witness for the amended C1: the concrete gate-passing liquidation run,
where the cap is zero (disabled) and the reward is the plain 50% share. -/
theorem liquidate_reward_formula_witness :
    ∃ maxr pct, Governance.maxLiquidationReward govLiq = .ok maxr ∧
      (Governance.liquidationReward govLiq).bind (fun lr =>
        (Factor.percentage_mul lr 100).bind fromU128) = .ok pct ∧
      liqOutcomeEx.reward = (if maxr ≠ 0 ∧ maxr < pct then maxr else pct) ∧
      (maxr ≠ 0 → liqOutcomeEx.reward ≤ maxr) :=
  liquidate_reward_formula posLiq reserveLiq govLiq 100 7 10 1 1 100 1000
    liqOutcomeEx (by decide)
